import Mathlib

/-!
# Verification of the async state-snapshot recorder (`src/async_state_saver.py`)

Shallow embedding of the snapshot recorder of this repository:

* `PyVal` models the Python values a workflow state may contain.
* `clean_for_json` embeds `SimpleStateSaver._clean_for_json`.
* `SaverState` / `save_sync` embed the mutable fields of `SimpleStateSaver`
  and its `save_sync` method; the wall clock and the outcome of the disk
  write are passed in explicitly (`Env`), since they are external inputs.
* `Recorder` / `save_background` / `run_worker` embed the submission queue
  of the single-worker `ThreadPoolExecutor` and the worker draining it.
* `make_error_state` / `wrapper_run` embed the error path of the
  `save_state` decorator's `wrapper`.
* `Store` / `build_error_state` give a heap-level rendering of the same
  error path, making object identity and mutation explicit.
-/

/-- The Python values that can appear in a workflow state, as discriminated
by `_clean_for_json`: `None`, `bool`, `int`, `float`, `str` (the primitives
of its first branch), `list` and `tuple` (its second branch), `dict` (its
third branch), and any other object (its fallback branch).

`float` values and opaque objects are carried by their display string: the
recorder never computes with a float, and an opaque object reaches the
output only through `str(obj)`. -/
inductive PyVal where
  | none : PyVal
  | bool (b : Bool) : PyVal
  | int (i : Int) : PyVal
  | float (r : String) : PyVal
  | str (s : String) : PyVal
  | list (xs : List PyVal) : PyVal
  | tuple (xs : List PyVal) : PyVal
  | dict (kvs : List (PyVal × PyVal)) : PyVal
  | obj (r : String) : PyVal

/-- Python's builtin `str` on the values above. Containers are given opaque
renderings: a `list` or `dict` is unhashable and so can never be a `dict`
key (the only place the source applies `str` to an arbitrary value besides
the `else` fallback, which only sees `obj`); no theorem below depends on
the rendering of a container or of a `tuple` key. -/
def pyStr : PyVal → String
  | .none => "None"
  | .bool true => "True"
  | .bool false => "False"
  | .int i => toString i
  | .float r => r
  | .str s => s
  | .obj r => r
  | .list _ => "<unhashable>"
  | .tuple _ => "<tuple>"
  | .dict _ => "<unhashable>"

/-- `SimpleStateSaver._clean_for_json`, branch for branch:

```python
if obj is None or isinstance(obj, (str, int, float, bool)):
    return obj
elif isinstance(obj, (list, tuple)):
    return [self._clean_for_json(item) for item in obj]
elif isinstance(obj, dict):
    return {str(k): self._clean_for_json(v) for k, v in obj.items()}
else:
    return str(obj)
```

The Lean definition is total, which is the embedded form of "this coercion
must never raise". -/
def clean_for_json : PyVal → PyVal
  | .none => .none
  | .str s => .str s
  | .int i => .int i
  | .float r => .float r
  | .bool b => .bool b
  | .list xs => .list (xs.attach.map fun x => clean_for_json x.1)
  | .tuple xs => .list (xs.attach.map fun x => clean_for_json x.1)
  | .dict kvs => .dict (kvs.attach.map fun kv => (.str (pyStr kv.1.1), clean_for_json kv.1.2))
  | .obj r => .str (pyStr (.obj r))
decreasing_by
  all_goals simp_wf
  · have := List.sizeOf_lt_of_mem x.2; omega
  · have := List.sizeOf_lt_of_mem x.2; omega
  · have h1 := List.sizeOf_lt_of_mem kv.2
    have h2 : sizeOf (kv.1).2 < sizeOf kv.1 := by
      obtain ⟨⟨a, b⟩, hm⟩ := kv; simp
    omega

theorem clean_for_json_list (xs : List PyVal) :
    clean_for_json (.list xs) = .list (xs.map clean_for_json) := by
  rw [clean_for_json]
  simp [List.attach, List.attachWith, List.map_pmap]

theorem clean_for_json_tuple (xs : List PyVal) :
    clean_for_json (.tuple xs) = .list (xs.map clean_for_json) := by
  rw [clean_for_json]
  simp [List.attach, List.attachWith, List.map_pmap]

theorem clean_for_json_dict (kvs : List (PyVal × PyVal)) :
    clean_for_json (.dict kvs)
      = .dict (kvs.map fun kv => (.str (pyStr kv.1), clean_for_json kv.2)) := by
  rw [clean_for_json]
  simp [List.attach, List.attachWith, List.map_pmap]

/-- The coercion described by the spec, written from its words alone, over
the spec's closed set of variants {null, bool, number, string, sequence,
mapping, opaque-fallback}: "primitives (string, number, boolean, null) pass
through unchanged; ordered sequences and keyed mappings recurse
element-wise (mapping keys are stringified); any other value type is
converted to its string representation". Compared with `clean_for_json`
(from the source) in the refinement theorem for C7. -/
def serialize_spec : PyVal → PyVal
  | .none => .none
  | .bool b => .bool b
  | .int i => .int i
  | .float r => .float r
  | .str s => .str s
  | .list xs => .list (xs.attach.map fun x => serialize_spec x.1)
  | .tuple xs => .list (xs.attach.map fun x => serialize_spec x.1)
  | .dict kvs => .dict (kvs.attach.map fun kv => (.str (pyStr kv.1.1), serialize_spec kv.1.2))
  | .obj r => .str (pyStr (.obj r))
decreasing_by
  all_goals simp_wf
  · have := List.sizeOf_lt_of_mem x.2; omega
  · have := List.sizeOf_lt_of_mem x.2; omega
  · have h1 := List.sizeOf_lt_of_mem kv.2
    have h2 : sizeOf (kv.1).2 < sizeOf kv.1 := by
      obtain ⟨⟨a, b⟩, hm⟩ := kv; simp
    omega

theorem serialize_spec_list (xs : List PyVal) :
    serialize_spec (.list xs) = .list (xs.map serialize_spec) := by
  rw [serialize_spec]
  simp [List.attach, List.attachWith, List.map_pmap]

theorem serialize_spec_tuple (xs : List PyVal) :
    serialize_spec (.tuple xs) = .list (xs.map serialize_spec) := by
  rw [serialize_spec]
  simp [List.attach, List.attachWith, List.map_pmap]

theorem serialize_spec_dict (kvs : List (PyVal × PyVal)) :
    serialize_spec (.dict kvs)
      = .dict (kvs.map fun kv => (.str (pyStr kv.1), serialize_spec kv.2)) := by
  rw [serialize_spec]
  simp [List.attach, List.attachWith, List.map_pmap]

/-- A value that is already plain JSON data: primitives, lists of plain
values, and mappings with string keys and plain values — the structures on
which the spec's idempotence property is claimed. -/
inductive IsPlain : PyVal → Prop where
  | none : IsPlain .none
  | bool (b : Bool) : IsPlain (.bool b)
  | int (i : Int) : IsPlain (.int i)
  | float (r : String) : IsPlain (.float r)
  | str (s : String) : IsPlain (.str s)
  | list (xs : List PyVal) (h : ∀ x ∈ xs, IsPlain x) : IsPlain (.list xs)
  | dict (kvs : List (PyVal × PyVal))
      (hk : ∀ kv ∈ kvs, ∃ s, kv.1 = PyVal.str s)
      (hv : ∀ kv ∈ kvs, IsPlain kv.2) : IsPlain (.dict kvs)

/-- Python `==` as used on dictionary keys by `error_state["_error"] = ...`.
Keys must be hashable, so `list`/`dict` never occur on either side of a key
comparison; mixed-type numeric equalities (`1 == 1.0`, `True == 1`) are not
modelled, and no theorem below compares keys of different variants. -/
def pyEq : PyVal → PyVal → Bool
  | .none, .none => true
  | .bool a, .bool b => a == b
  | .int a, .int b => a == b
  | .float a, .float b => a == b
  | .str a, .str b => a == b
  | .obj a, .obj b => a == b
  | .tuple xs, .tuple ys =>
    xs.length == ys.length && ((xs.zip ys).attach.all fun p => pyEq p.1.1 p.1.2)
  | _, _ => false
termination_by a _ => sizeOf a
decreasing_by
  simp_wf
  obtain ⟨⟨x, y⟩, hm⟩ := p
  have := List.sizeOf_lt_of_mem (List.of_mem_zip hm).1
  simp at *
  omega

/-- Python's `d[k] = v` on a dict rendered as its insertion-ordered entry
list: if some existing key compares equal to `k`, rebind that entry in
place (Python keeps the original key object and its position); otherwise
append `(k, v)` at the end. -/
def dictSet : List (PyVal × PyVal) → PyVal → PyVal → List (PyVal × PyVal)
  | [], k, v => [(k, v)]
  | (k', v') :: rest, k, v =>
    if pyEq k' k then (k', v) :: rest else (k', v') :: dictSet rest k v

theorem dictSet_append (kvs : List (PyVal × PyVal)) (k v : PyVal)
    (h : ∀ kv ∈ kvs, pyEq kv.1 k = false) : dictSet kvs k v = kvs ++ [(k, v)] := by
  induction kvs with
  | nil => rfl
  | cons kv rest ih =>
    obtain ⟨k', v'⟩ := kv
    rw [dictSet, if_neg (by simpa using h (k', v') (by simp))]
    simp only [List.cons_append, List.cons.injEq, true_and]
    exact ih fun kv hm => h kv (by simp [hm])

/-- Python's `f"{n:03d}"` for a natural number: the decimal digits,
left-padded with zeros to a width of at least 3. -/
def pad3 (n : Nat) : String :=
  let s := toString n
  ⟨List.replicate (3 - s.length) '0' ++ s.data⟩

/-- The snapshot filename computed by `save_sync`:
`f"{self.counter:03d}_{node_name}_{timestamp}.json"`, where `timestamp` is
the `"%H%M%S"` wall-clock rendering. -/
def snapshot_filename (counter : Nat) (node_name timestamp : String) : String :=
  pad3 counter ++ "_" ++ node_name ++ "_" ++ timestamp ++ ".json"

/-- The mutable/immutable fields of a `SimpleStateSaver` instance that
`save_sync` reads or writes. `__init__` sets `counter := 0` and
`run_dir := os.path.join(base_dir, f"{workflow_name}_{run_id}")`. -/
structure SaverState where
  workflow_name : String
  base_dir : String
  run_id : String
  run_dir : String
  counter : Nat
deriving Repr, DecidableEq

/-- A fresh `SimpleStateSaver` as left by `__init__` (the directory
creation side effects are outside the model; the generated `run_id` is
passed in). -/
def init_saver (workflow_name base_dir run_id : String) : SaverState :=
  { workflow_name, base_dir, run_id
    run_dir := base_dir ++ "/" ++ workflow_name ++ "_" ++ run_id
    counter := 0 }

/-- The external inputs of one `save_sync` execution: the two wall-clock
readings taken inside it and the fate of the guarded block (steps 3 and 4
of the spec: coercion, envelope construction and the `json.dump` write).
`write_ok = false` means some exception was raised inside the `try`. -/
structure Env where
  timestamp : String
  iso_time : String
  write_ok : Bool
deriving Repr, DecidableEq

/-- The envelope `save_sync` writes as JSON. -/
structure Snapshot where
  node : String
  order : Nat
  time : String
  workflow : String
  run_id : String
  state : PyVal

/-- `SimpleStateSaver.save_sync`, line for line. The whole body runs under
`self._lock`, so one call is an atomic transition on `SaverState`. The
counter is incremented and the filename computed before the `try`; on an
exception inside the `try` the handler logs and returns `""`. Returned:
the successor state, the string result, and the envelope written to disk
(`none` when the write failed). -/
def save_sync (σ : SaverState) (state : PyVal) (node_name : String) (env : Env) :
    SaverState × String × Option Snapshot :=
  let counter := σ.counter + 1
  let σ' := { σ with counter := counter }
  let filename := snapshot_filename counter node_name env.timestamp
  let filepath := σ.run_dir ++ "/" ++ filename
  if env.write_ok then
    (σ', filepath, some
      { node := node_name, order := counter, time := env.iso_time
        workflow := σ.workflow_name, run_id := σ.run_id
        state := clean_for_json state })
  else
    (σ', "", Option.none)

/-- One pending job of the `ThreadPoolExecutor` queue: the two positional
arguments that `save_background` passes to `self._executor.submit`. -/
structure Job where
  state : PyVal
  node_name : String

/-- A `SimpleStateSaver` together with the pending FIFO queue of its
single-worker executor. -/
structure Recorder where
  saver : SaverState
  queue : List Job

def init_recorder (workflow_name base_dir run_id : String) : Recorder :=
  { saver := init_saver workflow_name base_dir run_id, queue := [] }

/-- `SimpleStateSaver.save_background`: `self._executor.submit(self.save_sync,
state, node_name)` — the job is appended to the executor's FIFO queue and
the caller returns at once; nothing else of the saver is touched. -/
def save_background (r : Recorder) (state : PyVal) (node_name : String) : Recorder :=
  { r with queue := r.queue ++ [⟨state, node_name⟩] }

/-- A sequence of direct `save_sync` calls (or, equally, the single
background worker executing queued jobs one after the other): each call
receives its own external inputs, and we record for every call the
sequence number it claimed, its string result, and the envelope written. -/
def run_saves (σ : SaverState) : List (Job × Env) → SaverState × List (Nat × String × Option Snapshot)
  | [] => (σ, [])
  | (job, env) :: rest =>
    let (σ', res, snap) := save_sync σ job.state job.node_name env
    let (σ'', outs) := run_saves σ' rest
    (σ'', (σ'.counter, res, snap) :: outs)

/-- The background worker of the one-thread executor: it drains the FIFO
queue in order, executing `save_sync` for each job; the wall clock and
disk outcome of each execution are supplied alongside. -/
def run_worker (r : Recorder) (envs : List Env) :
    SaverState × List (Nat × String × Option Snapshot) :=
  run_saves r.saver (r.queue.zip envs)

/-- `True` exactly on `dict` values: `isinstance(state, dict)`. -/
def isDict : PyVal → Bool
  | .dict _ => true
  | _ => false

/-- The error snapshot built in the `except` branch of the decorator's
`wrapper`:

```python
error_state = dict(state) if isinstance(state, dict) else {"original_state": state}
error_state["_error"] = str(e)
```

`dict(state)` is a shallow copy; the item assignment is `dictSet`. The
failure's string rendering `str(e)` is the `msg` argument. -/
def make_error_state (state : PyVal) (msg : String) : PyVal :=
  let base : List (PyVal × PyVal) :=
    match state with
    | .dict kvs => kvs
    | _ => [(.str "original_state", state)]
  .dict (dictSet base (.str "_error") (.str msg))

/-- What one invocation of the wrapped step produced for its caller and
what it handed to the recorder. -/
structure WrapResult where
  result : Except String PyVal
  submitted : List (PyVal × String)

/-- The decorator's `wrapper(state)`, given the outcome of `func(state)`
(`.ok result` or `.error e` with `e` already rendered by `str`), whether
the global `_saver` is set, and whether the call to `save_background`
itself raises (`submit_fail = some e2` models, e.g., the executor
rejecting jobs after shutdown; no `try` guards these calls in `wrapper`,
neither on the success path nor inside the `except` branch). -/
def wrapper_run (has_saver : Bool) (submit_fail : Option String)
    (outcome : Except String PyVal) (state : PyVal) (actual_node_name : String) :
    WrapResult :=
  match outcome with
  | .ok result =>
    if has_saver then
      match submit_fail with
      | some e2 => { result := .error e2, submitted := [] }
      | Option.none => { result := .ok result, submitted := [(result, actual_node_name)] }
    else { result := .ok result, submitted := [] }
  | .error e =>
    if has_saver then
      match submit_fail with
      | some e2 => { result := .error e2, submitted := [] }
      | Option.none =>
        { result := .error e
          submitted := [(make_error_state state e, actual_node_name ++ "_ERROR")] }
    else { result := .error e, submitted := [] }

/-- A heap of Python `dict` objects: the address of a dict is its index,
its contents the insertion-ordered entry list. Used to render the object
identity and in-place mutation of the `except` branch explicitly. -/
abbrev Store := List (List (PyVal × PyVal))

/-- The caller's `state` as the wrapper sees it: either a reference to a
dict object on the heap, or a non-dict value (for which the wrapper builds
a fresh `{"original_state": state}` dict). -/
inductive StateArg where
  | heap (addr : Nat)
  | imm (v : PyVal)

/-- The `except` branch of `wrapper` at heap level: `dict(state)`
allocates a fresh dict (shallow copy of the entries at `addr`, or the
fresh one-entry wrapper dict), and `error_state["_error"] = str(e)`
mutates only that fresh object. Returns the new heap and the address of
`error_state`. -/
def build_error_state (σ : Store) (st : StateArg) (msg : String) : Store × Nat :=
  match st with
  | .heap addr =>
    let copy := σ.getD addr []
    (σ ++ [dictSet copy (.str "_error") (.str msg)], σ.length)
  | .imm v =>
    let wrapped := [((PyVal.str "original_state" : PyVal), v)]
    (σ ++ [dictSet wrapped (.str "_error") (.str msg)], σ.length)

/-! ## Helper lemmas -/

theorem save_sync_fst (σ : SaverState) (state : PyVal) (node_name : String) (env : Env) :
    (save_sync σ state node_name env).1 = { σ with counter := σ.counter + 1 } := by
  unfold save_sync
  split <;> rfl

theorem run_saves_cons (σ : SaverState) (job : Job) (env : Env) (rest : List (Job × Env)) :
    run_saves σ ((job, env) :: rest)
      = ((run_saves { σ with counter := σ.counter + 1 } rest).1,
          (σ.counter + 1,
           (save_sync σ job.state job.node_name env).2.1,
           (save_sync σ job.state job.node_name env).2.2)
            :: (run_saves { σ with counter := σ.counter + 1 } rest).2) := by
  rw [run_saves]
  rw [show (save_sync σ job.state job.node_name env)
        = ({ σ with counter := σ.counter + 1 },
           (save_sync σ job.state job.node_name env).2.1,
           (save_sync σ job.state job.node_name env).2.2) from by
    rw [← save_sync_fst σ job.state job.node_name env]]

/-- Running a list of save jobs from any saver state: the claimed sequence
numbers are the consecutive integers starting after the current counter,
the final counter has advanced by the number of jobs, and every envelope
that is written carries as its `order` field exactly the number its call
claimed. -/
theorem run_saves_spec (jes : List (Job × Env)) : ∀ σ : SaverState,
    ((run_saves σ jes).2.map (fun out => out.1)
        = List.range' (σ.counter + 1) jes.length)
    ∧ (run_saves σ jes).1.counter = σ.counter + jes.length
    ∧ ∀ out ∈ (run_saves σ jes).2, ∀ snap, out.2.2 = some snap → snap.order = out.1 := by
  induction jes with
  | nil =>
    intro σ
    simp [run_saves]
  | cons je rest ih =>
    intro σ
    obtain ⟨job, env⟩ := je
    obtain ⟨ih1, ih2, ih3⟩ := ih { σ with counter := σ.counter + 1 }
    rw [run_saves_cons]
    refine ⟨?_, ?_, ?_⟩
    · simpa [List.range'] using ih1
    · simpa [Nat.add_assoc, Nat.add_comm 1 rest.length] using ih2
    · intro out hm snap hsnap
      rcases List.mem_cons.mp hm with h | h
      · subst h
        dsimp at hsnap ⊢
        cases hw : env.write_ok with
        | false => simp [save_sync, hw] at hsnap
        | true =>
          simp only [save_sync, hw, if_true] at hsnap
          obtain rfl := Option.some.inj hsnap
          rfl
      · exact ih3 out h snap hsnap

theorem foldl_save_background_queue (jobs : List (PyVal × String)) :
    ∀ r : Recorder,
    (jobs.foldl (fun r j => save_background r j.1 j.2) r).queue
        = r.queue ++ jobs.map (fun j => Job.mk j.1 j.2)
    ∧ (jobs.foldl (fun r j => save_background r j.1 j.2) r).saver = r.saver := by
  induction jobs with
  | nil => intro r; simp
  | cons j rest ih =>
    intro r
    obtain ⟨ih1, ih2⟩ := ih (save_background r j.1 j.2)
    simp only [List.foldl_cons]
    constructor
    · rw [ih1]; simp [save_background]
    · rw [ih2, save_background]

set_option maxRecDepth 10000 in
set_option maxHeartbeats 1000000 in
theorem pad3_len : ∀ n : Nat, n < 1000 → (pad3 n).data.length = 3 := by decide

set_option maxRecDepth 10000 in
set_option maxHeartbeats 1000000 in
theorem pad3_adj : ∀ n : Nat, n < 999 → (pad3 n).data < (pad3 (n + 1)).data := by decide

theorem list_lt_append {u v : List Char} : ∀ {a b : List Char},
    a.length = b.length → a < b → (a ++ u) < (b ++ v) := by
  intro a b hlen h
  induction h with
  | nil => simp at hlen
  | cons h ih => exact List.Lex.cons (ih (by simpa using hlen))
  | rel h => exact List.Lex.rel h

theorem pad3_mono : ∀ n1 n2 : Nat, n1 < n2 → n2 ≤ 999 → (pad3 n1).data < (pad3 n2).data := by
  intro n1 n2
  induction n2 with
  | zero => omega
  | succ m ih =>
    intro h hle
    rcases Nat.lt_or_ge n1 m with h' | h'
    · exact lt_trans (ih h' (by omega)) (pad3_adj m (by omega))
    · have : n1 = m := by omega
      subst this
      exact pad3_adj n1 (by omega)

/-! ## The claims -/

/-- C1. Across any sequence of `N` `save_sync` calls on a fresh
`SimpleStateSaver`, the claimed sequence numbers are exactly the strictly
increasing sequence `1..N` (`List.range' 1 N`) with no gaps or repeats,
whatever the per-call wall-clock readings and disk outcomes (the `Env`s)
are; and every envelope actually written records as its `order` field the
number claimed by its own call, so each number belongs to exactly one
snapshot. -/
theorem run_orders_exact (workflow_name base_dir run_id : String)
    (jes : List (Job × Env)) :
    ((run_saves (init_saver workflow_name base_dir run_id) jes).2.map (fun out => out.1)
        = List.range' 1 jes.length)
    ∧ ∀ out ∈ (run_saves (init_saver workflow_name base_dir run_id) jes).2,
        ∀ snap, out.2.2 = some snap → snap.order = out.1 := by
  obtain ⟨h1, _, h3⟩ := run_saves_spec jes (init_saver workflow_name base_dir run_id)
  exact ⟨by simpa [init_saver] using h1, h3⟩

/-- C2. `save_sync` never propagates a failure: it is a total function
whose string result is the path of the file written when the guarded block
succeeds, and the empty-string sentinel `""` when any failure occurs
during coercion, envelope construction or the file write (all of which run
inside its `try`/`except`). -/
theorem save_sync_total_result (σ : SaverState) (state : PyVal)
    (node_name : String) (env : Env) :
    (save_sync σ state node_name env).2.1
      = (if env.write_ok
          then σ.run_dir ++ "/" ++ snapshot_filename (σ.counter + 1) node_name env.timestamp
          else "")
    ∧ ((save_sync σ state node_name env).2.2 = Option.none ↔ env.write_ok = false) := by
  unfold save_sync
  cases env.write_ok <;> simp

/-- C3, counterexample. The claim places the sequence-number assignment on
the caller's thread, before the job is submitted: `save_background` would
then advance the counter. It does not — on a fresh recorder the counter is
still `0` (no number claimed) after submission, and the job is merely
queued; the assignment happens only when the worker later runs
`save_sync`. -/
theorem save_background_assigns_nothing :
    (save_background (init_recorder "mtg_workflow" "workflow_states" "run") PyVal.none
        "launch_browser").saver.counter
        = (init_recorder "mtg_workflow" "workflow_states" "run").saver.counter
    ∧ (save_background (init_recorder "mtg_workflow" "workflow_states" "run") PyVal.none
        "launch_browser").saver.counter
        ≠ (init_recorder "mtg_workflow" "workflow_states" "run").saver.counter + 1
    ∧ (save_background (init_recorder "mtg_workflow" "workflow_states" "run") PyVal.none
        "launch_browser").queue.length = 1 := by
  refine ⟨rfl, ?_, rfl⟩
  simp [save_background, init_recorder, init_saver]

/-- C3, amended. `save_background` only appends the job to the FIFO queue
of the single-worker executor; the sequence number is assigned when the
worker executes `save_sync` for the job. Because the one worker drains the
queue in submission order, the queue after `N` submissions lists the jobs
in submission order, and the worker then claims the numbers `1..N` in
exactly that order — so sequence numbers still reflect step-completion
(submission) order. -/
theorem worker_fifo_assigns_in_submission_order
    (workflow_name base_dir run_id : String)
    (jobs : List (PyVal × String)) (envs : List Env)
    (h : envs.length = jobs.length) :
    ((jobs.foldl (fun r j => save_background r j.1 j.2)
        (init_recorder workflow_name base_dir run_id)).queue
        = jobs.map (fun j => Job.mk j.1 j.2))
    ∧ ((run_worker
          (jobs.foldl (fun r j => save_background r j.1 j.2)
            (init_recorder workflow_name base_dir run_id)) envs).2.map (fun out => out.1)
        = List.range' 1 jobs.length) := by
  obtain ⟨hq, hs⟩ := foldl_save_background_queue jobs
      (init_recorder workflow_name base_dir run_id)
  refine ⟨by simpa [init_recorder] using hq, ?_⟩
  unfold run_worker
  rw [hq, hs]
  obtain ⟨h1, _, _⟩ := run_saves_spec
      (((init_recorder workflow_name base_dir run_id).queue
          ++ jobs.map (fun j => Job.mk j.1 j.2)).zip envs)
      (init_recorder workflow_name base_dir run_id).saver
  rw [h1]
  simp [init_recorder, init_saver, List.length_zip, h]

/-- C3, witness for the amended theorem: two submissions, two worker
executions, orders `[1, 2]` in submission order. -/
theorem worker_fifo_assigns_in_submission_order_witness :
    ((([(PyVal.none, "launch_browser"), (PyVal.int 1, "navigate_page")] :
          List (PyVal × String)).foldl (fun r j => save_background r j.1 j.2)
        (init_recorder "mtg_workflow" "workflow_states" "run")).queue
        = [Job.mk PyVal.none "launch_browser", Job.mk (PyVal.int 1) "navigate_page"])
    ∧ ((run_worker
          (([(PyVal.none, "launch_browser"), (PyVal.int 1, "navigate_page")] :
              List (PyVal × String)).foldl (fun r j => save_background r j.1 j.2)
            (init_recorder "mtg_workflow" "workflow_states" "run"))
          [⟨"120000", "t1", true⟩, ⟨"120001", "t2", true⟩]).2.map (fun out => out.1)
        = List.range' 1 2) :=
  worker_fifo_assigns_in_submission_order "mtg_workflow" "workflow_states" "run"
    [(PyVal.none, "launch_browser"), (PyVal.int 1, "navigate_page")]
    [⟨"120000", "t1", true⟩, ⟨"120001", "t2", true⟩] rfl

/-- C4, counterexample. On step failure with the non-mapping state `"x"`,
the snapshot handed to the recorder is *not*
`{"originalState": "x", "_error": m}`: the wrapping key used by the code
is `"original_state"`, not `"originalState"`. -/
theorem error_snapshot_key_counterexample :
    (wrapper_run true Option.none (.error "boom") (.str "x") "step").submitted
      ≠ [(.dict [(.str "originalState", .str "x"), (.str "_error", .str "boom")],
          "step_ERROR")] := by
  simp [wrapper_run, make_error_state, dictSet, pyEq]

/-- C4, amended: with the key spelled `"original_state"` as in the code.
For every non-mapping state that fails with message `e`, the error
snapshot submitted to the recorder is
`{"original_state": state, "_error": e}`, and the original failure is
re-raised unchanged. -/
theorem error_snapshot_nondict (state : PyVal) (e node : String)
    (h : isDict state = false) :
    wrapper_run true Option.none (.error e) state node
      = { result := .error e,
          submitted := [(.dict [(.str "original_state", state), (.str "_error", .str e)],
                         node ++ "_ERROR")] } := by
  cases state <;> simp_all [isDict, wrapper_run, make_error_state, dictSet, pyEq]

/-- C4, witness: the claim's own example `state = "x"`. -/
theorem error_snapshot_nondict_witness :
    wrapper_run true Option.none (.error "boom") (.str "x") "step"
      = { result := .error "boom",
          submitted := [(.dict [(.str "original_state", .str "x"),
                                (.str "_error", .str "boom")], "step_ERROR")] } :=
  error_snapshot_nondict (.str "x") "boom" "step" rfl

/-- C5. On step failure with a keyed-mapping state none of whose keys
compares equal to `"_error"`, the error snapshot submitted to the recorder
is the shallow copy of the state extended with `"_error"` bound to the
failure message, and the original failure is re-raised to the caller
unchanged. -/
theorem error_snapshot_dict (kvs : List (PyVal × PyVal)) (e node : String)
    (h : ∀ kv ∈ kvs, pyEq kv.1 (.str "_error") = false) :
    wrapper_run true Option.none (.error e) (.dict kvs) node
      = { result := .error e,
          submitted := [(.dict (kvs ++ [(.str "_error", .str e)]), node ++ "_ERROR")] } := by
  simp [wrapper_run, make_error_state, dictSet_append kvs _ _ h]

/-- C5, witness: the claim's own example `state = {"a": 1}`. -/
theorem error_snapshot_dict_witness :
    wrapper_run true Option.none (.error "boom") (.dict [(.str "a", .int 1)]) "step"
      = { result := .error "boom",
          submitted := [(.dict [(.str "a", .int 1), (.str "_error", .str "boom")],
                         "step_ERROR")] } :=
  error_snapshot_dict [(.str "a", .int 1)] "boom" "step"
    (by intro kv hkv; rw [List.mem_singleton.mp hkv]; simp [pyEq])

/-- C6, counterexample. The `except` branch of `wrapper` contains no inner
`try`: when the submission of the error snapshot itself fails (e.g. the
executor refuses jobs after shutdown), the secondary failure — not the
original step failure `"boom"` — is what reaches the driver. -/
theorem secondary_failure_reaches_caller :
    (wrapper_run true (some "cannot schedule new futures after interpreter shutdown")
        (.error "boom") (.str "x") "step").result
      = .error "cannot schedule new futures after interpreter shutdown"
    ∧ (wrapper_run true (some "cannot schedule new futures after interpreter shutdown")
        (.error "boom") (.str "x") "step").result ≠ .error "boom" := by
  exact ⟨rfl, by simp [wrapper_run]⟩

/-- C6, amended. Error-snapshot capture is *not* best-effort: a secondary
failure while submitting the error snapshot propagates to the driver in
place of the original failure (first conjunct); only when the submission
succeeds is the original failure re-raised unchanged (second conjunct). -/
theorem secondary_failure_propagation (e2 e : String) (state : PyVal) (node : String) :
    wrapper_run true (some e2) (.error e) state node
        = { result := .error e2, submitted := [] }
    ∧ (wrapper_run true Option.none (.error e) state node).result = .error e := by
  exact ⟨rfl, rfl⟩

/-- C7. The source's coercion `_clean_for_json` coincides with the spec's
polymorphic serialization over the closed set of variants (primitives pass
through; sequences and mappings recurse element-wise with stringified
keys; anything else becomes its string rendering). Both functions are
total, which embeds "this coercion must never raise". -/
theorem clean_for_json_refines_spec (v : PyVal) : clean_for_json v = serialize_spec v := by
  induction v using clean_for_json.induct with
  | case1 => simp [clean_for_json, serialize_spec]
  | case2 => simp [clean_for_json, serialize_spec]
  | case3 => simp [clean_for_json, serialize_spec]
  | case4 => simp [clean_for_json, serialize_spec]
  | case5 => simp [clean_for_json, serialize_spec]
  | case6 xs ih =>
    rw [clean_for_json_list, serialize_spec_list]
    exact congrArg PyVal.list (List.map_congr_left fun x hx => ih ⟨x, hx⟩)
  | case7 xs ih =>
    rw [clean_for_json_tuple, serialize_spec_tuple]
    exact congrArg PyVal.list (List.map_congr_left fun x hx => ih ⟨x, hx⟩)
  | case8 kvs ih =>
    rw [clean_for_json_dict, serialize_spec_dict]
    exact congrArg PyVal.dict (List.map_congr_left fun kv hkv => by rw [ih ⟨kv, hkv⟩])
  | case9 => simp [clean_for_json, serialize_spec]

/-- C8. Coercing an already-plain structure (primitives, lists, mappings
with string keys) returns a value deep-equal to the input. -/
theorem clean_for_json_plain_id (v : PyVal) (h : IsPlain v) : clean_for_json v = v := by
  induction h with
  | none => simp [clean_for_json]
  | bool b => simp [clean_for_json]
  | int i => simp [clean_for_json]
  | float r => simp [clean_for_json]
  | str s => simp [clean_for_json]
  | list xs hmem ih =>
    rw [clean_for_json_list]
    refine congrArg PyVal.list ?_
    conv_rhs => rw [← List.map_id xs]
    exact List.map_congr_left fun x hx => ih x hx
  | dict kvs hk hv ih =>
    rw [clean_for_json_dict]
    refine congrArg PyVal.dict ?_
    conv_rhs => rw [← List.map_id kvs]
    refine List.map_congr_left fun kv hkv => ?_
    obtain ⟨k, v2⟩ := kv
    obtain ⟨s, hs⟩ := hk (k, v2) hkv
    simp only at hs
    subst hs
    simp [pyStr, ih (PyVal.str s, v2) hkv]

/-- C8, witness: a nested plain structure is returned unchanged. -/
theorem clean_for_json_plain_id_witness :
    clean_for_json (.dict [(.str "a", .int 1), (.str "messages", .list [.str "ok", .none])])
      = .dict [(.str "a", .int 1), (.str "messages", .list [.str "ok", .none])] :=
  clean_for_json_plain_id _ (by
    refine IsPlain.dict _ (fun kv hkv => ?_) (fun kv hkv => ?_)
    · rcases List.mem_cons.mp hkv with h | h
      · exact ⟨"a", by rw [h]⟩
      · rw [List.mem_singleton.mp h]
        exact ⟨"messages", rfl⟩
    · rcases List.mem_cons.mp hkv with h | h
      · rw [h]; exact IsPlain.int 1
      · rw [List.mem_singleton.mp h]
        refine IsPlain.list _ fun x hx => ?_
        rcases List.mem_cons.mp hx with h2 | h2
        · rw [h2]; exact IsPlain.str "ok"
        · rw [List.mem_singleton.mp h2]; exact IsPlain.none)

/-- C9, counterexample. Beyond 999 the code's `f"{n:03d}"` just prints the
number at its natural width; it does not preserve lexicographic order: the
file of snapshot 1000 sorts strictly before the file of snapshot 999. -/
theorem filename_order_breaks_beyond_999 :
    snapshot_filename 1000 "analyze_page" "120000"
        < snapshot_filename 999 "analyze_page" "120000"
    ∧ ¬ (snapshot_filename 999 "analyze_page" "120000"
        < snapshot_filename 1000 "analyze_page" "120000") := by
  rw [String.lt_iff_toList_lt, String.lt_iff_toList_lt]
  exact ⟨by decide, by decide⟩

/-- C9, amended: the filename is deterministically the zero-padded (at
least 3 digits) sequence number, the step name and the HHMMSS stamp with
the `.json` extension (definition `snapshot_filename`, used by
`save_sync`), and lexicographic filename order matches sequence-number
order for sequence numbers up to 999 — but not beyond (see the
counterexample). -/
theorem filename_lex_order_upto_999 (n1 n2 : Nat) (name1 name2 stamp1 stamp2 : String)
    (hlt : n1 < n2) (hle : n2 ≤ 999) :
    snapshot_filename n1 name1 stamp1 < snapshot_filename n2 name2 stamp2 := by
  have hdata : ∀ (n : Nat) (name stamp : String),
      (snapshot_filename n name stamp).toList
        = (pad3 n).data
            ++ ("_".data ++ (name.data ++ ("_".data ++ (stamp.data ++ ".json".data)))) := by
    intro n name stamp
    simp [snapshot_filename, String.toList, String.data_append]
  rw [String.lt_iff_toList_lt, hdata, hdata]
  exact list_lt_append
    (by rw [pad3_len n1 (by omega), pad3_len n2 (by omega)])
    (pad3_mono n1 n2 hlt hle)

/-- C9, witness: snapshots 1 and 2 of a run, different step names and
stamps. -/
theorem filename_lex_order_upto_999_witness :
    snapshot_filename 1 "launch_browser" "120000"
      < snapshot_filename 2 "navigate_page" "120001" :=
  filename_lex_order_upto_999 1 2 "launch_browser" "navigate_page" "120000" "120001"
    (by decide) (by decide)

/-- C10. Building the error snapshot never mutates the caller's state: at
heap level, every dict object existing before the `except` branch runs is
unchanged afterwards (first conjunct), and the `error_state` object the
branch produces is a fresh object, not an alias of any existing one
(second conjunct) — for a mapping state the `"_error"` field goes only
into the shallow copy, for a non-mapping state the original value is
embedded unmodified in a fresh mapping. -/
theorem build_error_state_frame (σ : Store) (st : StateArg) (msg : String) (i : Nat)
    (h : i < σ.length) :
    ((build_error_state σ st msg).1)[i]? = σ[i]?
    ∧ (build_error_state σ st msg).2 = σ.length := by
  cases st <;> exact ⟨List.getElem?_append_left h, rfl⟩

/-- C10, witness: a one-dict heap; the caller's dict `{"a": 1}` at address
0 is untouched and the error snapshot lives at the fresh address 1. -/
theorem build_error_state_frame_witness :
    0 < ([[(PyVal.str "a", PyVal.int 1)]] : Store).length
    ∧ (((build_error_state [[(PyVal.str "a", PyVal.int 1)]] (StateArg.heap 0) "boom").1)[0]?
        = ([[(PyVal.str "a", PyVal.int 1)]] : Store)[0]?
      ∧ (build_error_state [[(PyVal.str "a", PyVal.int 1)]] (StateArg.heap 0) "boom").2
        = ([[(PyVal.str "a", PyVal.int 1)]] : Store).length) :=
  ⟨by decide, build_error_state_frame [[(PyVal.str "a", PyVal.int 1)]]
    (StateArg.heap 0) "boom" 0 (by decide)⟩
